import Mathlib

/-!
Verification of the u-root wifi tool (`pkg/wpa`-style wifi package and the
`cmds/wifi` command) against its natural-language specification.

The Go source is shallowly embedded:

* Scan-parser (`parseIwlistOut` in the wifi package).  The Go code runs
  line-anchored regular expressions (`(?m)^...`) over the raw scan text and
  then indexes the resulting match lists.  We model the input as its list of
  lines (`List String`); each of the five regexes is line-anchored, so a match
  corresponds to a line satisfying a decidable predicate, and the byte-index
  windows `o[cells[i][0]:cells[i+1][0]]` used by the Go code correspond to the
  sub-list of lines from one Cell line up to (excluding) the next Cell line.
  (We assume matches start at the line holding the literal text: Go's `\s*`
  could in principle drag a match start across a preceding all-whitespace
  line, which does not occur in scan output and does not affect the claims.)
  Go panics from out-of-range slice indexing are made explicit as `Except`
  error values, with the index source recorded so that unreachability of a
  particular panic can be stated.
* Profile generation (`generateConfig`): the external `passphrase.Run`
  collaborator is a function parameter; `fmt.Sprintf` on the two fixed
  templates is string concatenation.
* The DHCPv4 renewal loop (`dhclient4` in `cmds/wifi/wifi.go`, the
  always-looping renewal variant): the external DHCP client
  (`NewV4`/`Solicit`/`Renew`/`HandlePacket`) is an oracle (`DhcpEnv`), the
  two unbounded `for` loops take explicit fuel, and the run records a trace
  of externally visible events (solicit, renew, handle, sleep) so that
  temporal claims about renewal timing can be read off the trace.
  Durations are in whole seconds (`timeout = 15`, `slop = 10`, and a lease's
  `ValidLifetime`), matching the only granularity the code uses.
-/

namespace Wifi

/-- Security protocol classification, as in the Go source (`SecProto`). -/
inductive SecProto where
  | NoEnc
  | WpaPsk
  | WpaEap
  | NotSupportedProto
deriving DecidableEq, Repr

/-- One scan record, as in the Go source (`WifiOption`). -/
structure WifiOption where
  Essid : String
  AuthSuite : SecProto
deriving DecidableEq, Repr

/-- The character class of Go's regexp `\s`. -/
def goWS : List Char := [' ', '\t', '\n', '\x0c', '\r']

/-- Drop the leading `\s*` of a line (the regexes all begin `^\s*`). -/
def stripWS (s : String) : String :=
  ⟨s.data.dropWhile (fun c => goWS.contains c)⟩

/-- Go `strings.Trim s cutset`: remove leading and trailing characters
drawn from `cut`. -/
def trimChars (s : String) (cut : List Char) : String :=
  ⟨((s.data.dropWhile (fun c => cut.contains c)).reverse.dropWhile
      (fun c => cut.contains c)).reverse⟩

/-- Whether `pre` is a prefix of `s` (structural version of `String.startsWith`). -/
def strStarts (s pre : String) : Bool := pre.data.isPrefixOf s.data

/-- Go `strings.Split s ":"` on the underlying characters: split at every
colon; on the empty list the result is one empty part, as in Go. -/
def splitColonAux : List Char → List (List Char)
  | [] => [[]]
  | c :: cs =>
    match splitColonAux cs with
    | [] => [[c]]
    | h :: t => if c = ':' then [] :: h :: t else (c :: h) :: t

/-- Go `strings.Split s ":"`. -/
def splitColon (s : String) : List String :=
  (splitColonAux s.data).map (fun l => ⟨l⟩)

/-- A line matched by `cellRE = (?m)^\s*Cell`. -/
def isCellLine (s : String) : Bool := strStarts (stripWS s) "Cell"

/-- A line matched by `essidRE = (?m)^\s*ESSID.*`. -/
def isEssidLine (s : String) : Bool := strStarts (stripWS s) "ESSID"

/-- A line matched by `encKeyOptRE = (?m)^\s*Encryption key:(on|off)$`. -/
def isEncKeyLine (s : String) : Bool :=
  stripWS s == "Encryption key:on" || stripWS s == "Encryption key:off"

/-- A line matched by `wpa2RE = (?m)^\s*IE: IEEE 802.11i/WPA2 Version 1$`
(the unescaped regex dots are treated as the literal characters they match in
real scan output). -/
def isWpa2Line (s : String) : Bool :=
  stripWS s == "IE: IEEE 802.11i/WPA2 Version 1"

/-- A line matched by `authSuitesRE = (?m)^\s*Authentication Suites .*$`. -/
def isAuthSuitesLine (s : String) : Bool :=
  strStarts (stripWS s) "Authentication Suites "

/-- Line indices of `cellRE.FindAllIndex o`: where each cell block starts. -/
def cellIdxs (ls : List String) : List Nat :=
  (List.range ls.length).filter (fun i => isCellLine ((ls.get? i).getD ""))

/-- Go panics made explicit: `seqOOB` is an out-of-range index into the
`essids` or `encKeyOpts` match sequences (`essids[i]` / `encKeyOpts[i]`);
`splitOOB` is an out-of-range `strings.Split(...)[1]` access. -/
inductive ParseErr where
  | seqOOB
  | splitOOB
deriving DecidableEq, Repr

/-- The security classification performed for one non-duplicate cell block:
the body of the Go loop from the `encKeyOpt` extraction to the `switch`.
`c` is the line index of this block's Cell line and `endIdx` the line index
where the next block starts (or the line count for the last block), so
`window` is the byte range `o[cells[i][0]:end]` of the Go code. -/
def classifyCell (ls : List String) (encLine : String) (c endIdx : Nat) :
    Except ParseErr SecProto :=
  match (splitColon encLine).get? 1 with
  | none => .error .splitOOB
  | some rawEnc =>
    if trimChars rawEnc ['\n'] = "off" then .ok .NoEnc
    else
      let window := (ls.drop c).take (endIdx - c)
      match window.findIdx? isWpa2Line with
      | none => .ok .NotSupportedProto
      | some l =>
        let authSearchArea := window.drop l
        match (splitColon ((authSearchArea.find? isAuthSuitesLine).getD "")).get? 1 with
        | none => .error .splitOOB
        | some rawAuth =>
          let authSuites := trimChars rawAuth ['\n', ' ']
          .ok (if authSuites = "PSK" then .WpaPsk
               else if authSuites = "802.1x" then .WpaEap
               else .NotSupportedProto)

/-- The `for i := 0; i < len(cells); i++` loop of `parseIwlistOut`:
`cs` is the remaining suffix of the cell-start list, `i` the current loop
index, `known` the contents of the `knownEssids` set. -/
def parseCells (ls essids encs : List String) :
    List Nat → Nat → List String → Except ParseErr (List WifiOption)
  | [], _, _ => .ok []
  | c :: rest, i, known =>
    match essids.get? i with
    | none => .error .seqOOB
    | some essidLine =>
      match (splitColon essidLine).get? 1 with
      | none => .error .splitOOB
      | some rawEssid =>
        let essid := trimChars rawEssid ['"', '\n']
        if known.contains essid then
          parseCells ls essids encs rest (i + 1) known
        else
          match encs.get? i with
          | none => .error .seqOOB
          | some encLine =>
            match classifyCell ls encLine c ((rest.head?).getD ls.length) with
            | .error e => .error e
            | .ok proto =>
              (parseCells ls essids encs rest (i + 1) (essid :: known)).map
                (fun res => ⟨essid, proto⟩ :: res)

/-- Function `parseIwlistOut` of the Go wifi package, over the lines of the raw
`iwlist` output.  Returns `.ok []` when no cell blocks are found. -/
def parseIwlistOut (ls : List String) : Except ParseErr (List WifiOption) :=
  let cells := cellIdxs ls
  if cells.isEmpty then .ok []
  else parseCells ls (ls.filter isEssidLine) (ls.filter isEncKeyLine) cells 0 []

/-- The fixed `nopassphrase` template with its `%s` substituted, as
`fmt.Sprintf(nopassphrase, essid)` produces it. -/
def nopassphrase (ssid : String) : String :=
  "network=\x7b\n\t\tssid=\"" ++ ssid ++ "\"\n\t\tproto=RSN\n\t\tkey_mgmt=NONE\n\t\x7d"

/-- The fixed `eap` template with its three `%s` substituted, in the order
`fmt.Sprintf(eap, a[0], a[2], a[1])` uses them: ssid, identity, password.
(The literal chunks concatenate to exactly the Go raw-string template.) -/
def eap (ssid idn pass : String) : String :=
  "network=\x7b\n\t\t" ++ "ssid=\"" ++ ssid ++ "\"" ++ "\n\t\tkey_mgmt=WPA-EAP\n\t\t" ++
    "identity=\"" ++ idn ++ "\"" ++ "\n\t\t" ++ "password=\"" ++ pass ++ "\"" ++ "\n\t\x7d"

/-- Errors `generateConfig` can return: `invalidArgumentCount` models
`fmt.Errorf("generateConfig needs 1, 2, or 3 args")` (the spec's
`InvalidArgumentCount`); `passphraseFailed` wraps an error of the external
`passphrase.Run` collaborator, as `fmt.Errorf("essid: %v, pass: %v : %v")`
does. -/
inductive ConfigErr where
  | invalidArgumentCount
  | passphraseFailed (msg : String)
deriving DecidableEq, Repr

/-- Function `generateConfig` of the Go wifi package.  `a` is the argument slice
`[essid, pass, id]`; `run` is the external `passphrase.Run` collaborator
(called as `run essid pass`). -/
def generateConfig (run : String → String → Except String String)
    (a : List String) : Except ConfigErr String :=
  match a with
  | [essid, pass, idn] => .ok (eap essid idn pass)
  | [essid, pass] =>
    match run essid pass with
    | .ok conf => .ok conf
    | .error e =>
      .error (.passphraseFailed ("essid: " ++ essid ++ ", pass: " ++ pass ++ " : " ++ e))
  | [essid] => .ok (nopassphrase essid)
  | _ => .error .invalidArgumentCount

end Wifi

namespace WifiCmd

/-- A DHCP lease, reduced to the one field `dhclient4` inspects:
`packet.Leases()[0].ValidLifetime`, in whole seconds (`0` = infinite). -/
structure Lease where
  ValidLifetime : Nat
deriving DecidableEq, Repr

/-- Constant `timeout = 15s`, the per-exchange timeout handed to `dhclient.NewV4`. -/
def timeout : Nat := 15

/-- Constant `slop = 10s`, the renewal safety margin of `dhclient4`. -/
def slop : Nat := 10

/-- Externally visible actions of one `dhclient4` run, in order. -/
inductive DhcpEvent where
  | solicit
  | renew
  | handle (p : Lease) (r : Option String)
  | sleep (d : Nat)
deriving DecidableEq, Repr

/-- Oracle for the external DHCP collaborators: `newV4` is the result of
`dhclient.NewV4` (`some msg` = failure), `solicit`/`renew` answer the `n`-th
exchange attempt of the run (`none` = error, which `dhclient4` merely logs
and retries), and `handlePacket` is `dhclient.HandlePacket`
(`some msg` = error). -/
structure DhcpEnv where
  newV4 : Option String
  solicit : Nat → Option Lease
  renew : Lease → Nat → Option Lease
  handlePacket : Lease → Option String

/-- Result of a `dhclient4` run.  There is deliberately no retry-exhaustion
constructor: the inner `for i := 0; i > -1; i++` loop only exits through a
successful exchange, so a run that never gets a lease never terminates,
which the fuelled embedding reports as `outOfFuel`. -/
inductive RunResult where
  | ok
  | newV4Error (s : String)
  | handleError (s : String)
  | outOfFuel
deriving DecidableEq, Repr

/-- The inner retry loop `for i := 0; i > -1; i++` of `dhclient4`: solicit
while `needsRequest`, else renew the previous `packet`; an exchange error is
logged and retried, a success returns the new packet (after which the caller
continues with `needsRequest = false`).  `n` numbers the exchange attempts
across the whole run; the fuel bounds how many attempts we observe. -/
def innerLoop (env : DhcpEnv) (needsRequest : Bool) (packet : Option Lease) :
    Nat → Nat → Option (Lease × Nat × List DhcpEvent)
  | _, 0 => none
  | n, fuel + 1 =>
    if needsRequest then
      match env.solicit n with
      | some p => some (p, n + 1, [.solicit])
      | none =>
        match innerLoop env needsRequest packet (n + 1) fuel with
        | some (p, m, es) => some (p, m, .solicit :: es)
        | none => none
    else
      match packet with
      | some prev =>
        match env.renew prev n with
        | some p => some (p, n + 1, [.renew])
        | none =>
          match innerLoop env needsRequest packet (n + 1) fuel with
          | some (p, m, es) => some (p, m, .renew :: es)
          | none => none
      | none => none

/-- The outer `for` loop of `dhclient4`: get or renew a lease, apply it with
`dhclient.HandlePacket` (whose error is returned, wrapped exactly as the
source wraps it), break with success on an infinite lease, otherwise sleep
`timeout - slop` seconds and loop.  `ifuel` bounds the inner retry loop and
`ofuel` the number of outer iterations observed. -/
def outerLoop (env : DhcpEnv) (ifuel : Nat) :
    Bool → Option Lease → Nat → Nat → RunResult × List DhcpEvent
  | _, _, _, 0 => (.outOfFuel, [])
  | needsRequest, packet, n, ofuel + 1 =>
    match innerLoop env needsRequest packet n ifuel with
    | none => (.outOfFuel, [])
    | some (p, n', es) =>
      match env.handlePacket p with
      | some e =>
        (.handleError ("error handling pakcet: " ++ e), es ++ [.handle p (some e)])
      | none =>
        if p.ValidLifetime = 0 then (.ok, es ++ [.handle p none])
        else
          match outerLoop env ifuel false (some p) n' ofuel with
          | (r, tr) => (r, es ++ [.handle p none, .sleep (timeout - slop)] ++ tr)

/-- Function `dhclient4` of `cmds/wifi/wifi.go` (the always-looping renewal variant):
construct the client, then run the renewal loop starting from
`needsRequest = true` with no previous packet. -/
def dhclient4 (env : DhcpEnv) (ifuel ofuel : Nat) : RunResult × List DhcpEvent :=
  match env.newV4 with
  | some e => (.newV4Error ("error: " ++ e), [])
  | none => outerLoop env ifuel true none 0 ofuel

end WifiCmd


/-- The §8 end-to-end scan scenario: the same SSID `"Home"` in two cell
blocks, the first with encryption off, the second WPA2 with PSK. -/
def homeScan : List String :=
  [ "Cell 01 - Address: AA:BB",
    "          ESSID:\"Home\"",
    "          Encryption key:off",
    "Cell 02 - Address: CC:DD",
    "          ESSID:\"Home\"",
    "          Encryption key:on",
    "          IE: IEEE 802.11i/WPA2 Version 1",
    "          Authentication Suites (1) : PSK" ]

/-- Windowing scenario: block `"A"` has encryption on but no WPA2 marker in
its own window; a WPA2 marker and an authentication-suite line do appear
later in the document, inside block `"B"`. -/
def windowScan : List String :=
  [ "Cell 01 - Address: AA:BB",
    "          ESSID:\"A\"",
    "          Encryption key:on",
    "Cell 02 - Address: CC:DD",
    "          ESSID:\"B\"",
    "          Encryption key:on",
    "          IE: IEEE 802.11i/WPA2 Version 1",
    "          Authentication Suites (1) : PSK" ]

/-- Encryption-off scenario: the indicator is off while a WPA2 marker and an
authentication-suite line sit inside the very same block. -/
def offScan : List String :=
  [ "Cell 01 - Address: AA:BB",
    "          ESSID:\"X\"",
    "          Encryption key:off",
    "          IE: IEEE 802.11i/WPA2 Version 1",
    "          Authentication Suites (1) : 802.1x" ]

/-- A DHCP oracle that grants an infinite lease on the first solicit. -/
def envInf : WifiCmd.DhcpEnv :=
  ⟨none, fun _ => some ⟨0⟩, fun p _ => some p, fun _ => none⟩

/-- A DHCP oracle that always grants 100-second leases and whose
`HandlePacket` always succeeds. -/
def envT100 : WifiCmd.DhcpEnv :=
  ⟨none, fun _ => some ⟨100⟩, fun _ _ => some ⟨100⟩, fun _ => none⟩

/-- The string `needle` occurs contiguously inside `hay`. -/
def strContains (hay needle : String) : Prop :=
  ∃ s t : List Char, hay.data = s ++ needle.data ++ t

/-- Projection `String.data` distributes over append. -/
theorem strData_append (s t : String) : (s ++ t).data = s.data ++ t.data := rfl

/-- C7: for every ssid, passphrase and identity, `generateConfig` with these
three arguments yields the enterprise (`eap`) profile, which embeds the first
argument in its ssid field, the third in its identity field and the second in
its password field, in plaintext; in particular for
`("Office", "secret123", "alice")`. -/
theorem generateConfig_eap_fields
    (run : String → String → Except String String) (ssid pass idn : String) :
    Wifi.generateConfig run [ssid, pass, idn] = .ok (Wifi.eap ssid idn pass) ∧
    strContains (Wifi.eap ssid idn pass) ("ssid=\"" ++ ssid ++ "\"") ∧
    strContains (Wifi.eap ssid idn pass) ("identity=\"" ++ idn ++ "\"") ∧
    strContains (Wifi.eap ssid idn pass) ("password=\"" ++ pass ++ "\"") ∧
    Wifi.generateConfig run ["Office", "secret123", "alice"]
      = .ok (Wifi.eap "Office" "alice" "secret123") := by
  refine ⟨rfl, ?_, ?_, ?_, rfl⟩
  · refine ⟨"network=\x7b\n\t\t".data,
      ("\n\t\tkey_mgmt=WPA-EAP\n\t\t" ++ "identity=\"" ++ idn ++ "\"" ++
        "\n\t\t" ++ "password=\"" ++ pass ++ "\"" ++ "\n\t\x7d").data, ?_⟩
    simp [Wifi.eap, strData_append]
  · refine ⟨("network=\x7b\n\t\t" ++ "ssid=\"" ++ ssid ++ "\"" ++
        "\n\t\tkey_mgmt=WPA-EAP\n\t\t").data,
      ("\n\t\t" ++ "password=\"" ++ pass ++ "\"" ++ "\n\t\x7d").data, ?_⟩
    simp [Wifi.eap, strData_append]
  · refine ⟨("network=\x7b\n\t\t" ++ "ssid=\"" ++ ssid ++ "\"" ++
        "\n\t\tkey_mgmt=WPA-EAP\n\t\t" ++ "identity=\"" ++ idn ++ "\"" ++
        "\n\t\t").data, "\n\t\x7d".data, ?_⟩
    simp [Wifi.eap, strData_append]

/-- C8: `generateConfig` applied to an argument slice with zero strings or
with more than three strings fails with the invalid-argument-count error and
returns no profile. -/
theorem generateConfig_invalid_arity
    (run : String → String → Except String String) (a : List String)
    (h : a.length = 0 ∨ 4 ≤ a.length) :
    Wifi.generateConfig run a = .error .invalidArgumentCount := by
  match a, h with
  | [], _ => rfl
  | [x], h => simp at h
  | [x, y], h => simp at h
  | [x, y, z], h => simp at h
  | _ :: _ :: _ :: _ :: _, _ => rfl

/-- C8 witness: the empty and a four-element argument slice satisfy the
arity hypothesis and are rejected. -/
theorem generateConfig_invalid_arity_witness :
    (([] : List String).length = 0 ∨ 4 ≤ ([] : List String).length) ∧
    Wifi.generateConfig (fun _ _ => .error "e") [] = .error .invalidArgumentCount ∧
    ((["a", "b", "c", "d"] : List String).length = 0 ∨
      4 ≤ (["a", "b", "c", "d"] : List String).length) ∧
    Wifi.generateConfig (fun _ _ => .error "e") ["a", "b", "c", "d"]
      = .error .invalidArgumentCount :=
  ⟨Or.inl rfl,
   generateConfig_invalid_arity (fun _ _ => .error "e") [] (Or.inl rfl),
   Or.inr (by decide),
   generateConfig_invalid_arity (fun _ _ => .error "e") ["a", "b", "c", "d"]
     (Or.inr (by decide))⟩

/-- C1 (code evaluated at the failing input): granted leases with
`ValidLifetime = 100` seconds, which exceeds the `slop = 10` margin, the run
sleeps the constant `timeout - slop = 5` seconds before each renewal attempt
instead of `ValidLifetime - slop = 90`: the renewal is issued after only 5
seconds, strictly before `T - margin` has elapsed. -/
theorem dhclient4_sleep_ignores_lifetime :
    (WifiCmd.dhclient4 envT100 1 2).2
      = [.solicit, .handle ⟨100⟩ none, .sleep (WifiCmd.timeout - WifiCmd.slop),
         .renew, .handle ⟨100⟩ none, .sleep (WifiCmd.timeout - WifiCmd.slop)] ∧
    WifiCmd.timeout - WifiCmd.slop = 5 ∧ (5 : Nat) < 100 - WifiCmd.slop :=
  ⟨rfl, rfl, by decide⟩

/-- The initial retry loop (entered with `needsRequest = true`) only ever
solicits: its trace contains no renewal event. -/
theorem innerLoop_true_no_renew (env : WifiCmd.DhcpEnv) (packet : Option WifiCmd.Lease)
    (p : WifiCmd.Lease) (fuel n m : Nat) (es : List WifiCmd.DhcpEvent)
    (h : WifiCmd.innerLoop env true packet n fuel = some (p, m, es)) :
    WifiCmd.DhcpEvent.renew ∉ es := by
  induction fuel generalizing n es with
  | zero => simp [WifiCmd.innerLoop] at h
  | succ k ih =>
    simp only [WifiCmd.innerLoop, if_true, ite_true] at h
    split at h
    next q hs =>
      obtain ⟨h1, h2, h3⟩ := by simpa using h
      subst h3
      simp
    next hs =>
      split at h
      next q m2 es2 hrec =>
        obtain ⟨h1, h2, h3⟩ := by simpa using h
        subst h3
        subst h1
        subst h2
        simp only [List.mem_cons, not_or]
        exact ⟨by simp, ih (n + 1) es2 hrec⟩
      next => simp at h

/-- C4: a run whose first successful exchange returns a lease with the
infinite sentinel `ValidLifetime = 0` and whose `HandlePacket` succeeds on it
terminates with success immediately after applying the lease, and its trace
contains no renewal call. -/
theorem dhclient4_infinite_lease (env : WifiCmd.DhcpEnv) (p : WifiCmd.Lease)
    (ifuel ofuel n : Nat) (es : List WifiCmd.DhcpEvent)
    (hnew : env.newV4 = none)
    (hsol : WifiCmd.innerLoop env true none 0 ifuel = some (p, n, es))
    (hinf : p.ValidLifetime = 0)
    (hhandle : env.handlePacket p = none) :
    WifiCmd.dhclient4 env ifuel (ofuel + 1)
      = (.ok, es ++ [.handle p none]) ∧
    WifiCmd.DhcpEvent.renew ∉ es ++ [WifiCmd.DhcpEvent.handle p none] := by
  constructor
  · simp [WifiCmd.dhclient4, hnew, WifiCmd.outerLoop, hsol, hhandle, hinf]
  · have h1 := innerLoop_true_no_renew env none p ifuel 0 n es hsol
    simp [h1]

/-- C4 witness: the oracle granting an infinite lease on the first solicit
satisfies all hypotheses; the run succeeds with trace `solicit, handle`. -/
theorem dhclient4_infinite_lease_witness :
    envInf.newV4 = none ∧
    WifiCmd.innerLoop envInf true none 0 1 = some (⟨0⟩, 1, [.solicit]) ∧
    (⟨0⟩ : WifiCmd.Lease).ValidLifetime = 0 ∧
    envInf.handlePacket ⟨0⟩ = none ∧
    (WifiCmd.dhclient4 envInf 1 1
        = (.ok, [.solicit, .handle ⟨0⟩ none]) ∧
      WifiCmd.DhcpEvent.renew ∉
        [WifiCmd.DhcpEvent.solicit, WifiCmd.DhcpEvent.handle ⟨0⟩ none]) :=
  ⟨rfl, rfl, rfl, rfl,
    dhclient4_infinite_lease envInf ⟨0⟩ 1 0 1 [.solicit] rfl rfl rfl rfl⟩

/-- Terminating outcomes of the renewal loop: only a HandlePacket failure
(with exactly the source's error wrapping) or success at an infinite lease;
in both cases the decisive HandlePacket application is the last trace
event. -/
theorem outerLoop_cases (env : WifiCmd.DhcpEnv) (ifuel : Nat) :
    ∀ (ofuel : Nat) (needsRequest : Bool) (packet : Option WifiCmd.Lease) (n : Nat)
      (r : WifiCmd.RunResult) (tr : List WifiCmd.DhcpEvent),
      WifiCmd.outerLoop env ifuel needsRequest packet n ofuel = (r, tr) →
      ((r = .ok ∨ r = .outOfFuel ∨ ∃ s, r = .handleError s) ∧
       (∀ s, r = .handleError s →
          ∃ p e, env.handlePacket p = some e ∧ s = "error handling pakcet: " ++ e ∧
            tr.getLast? = some (.handle p (some e))) ∧
       (r = .ok → ∃ p, env.handlePacket p = none ∧ p.ValidLifetime = 0 ∧
            tr.getLast? = some (.handle p none))) := by
  intro ofuel
  induction ofuel with
  | zero =>
    intro nr pk n r tr h
    simp only [WifiCmd.outerLoop] at h
    injection h with h1 h2
    subst h1
    subst h2
    refine ⟨Or.inr (Or.inl rfl), ?_, ?_⟩
    · intro s hs; exact absurd hs (by simp)
    · intro hok; exact absurd hok (by simp)
  | succ k ih =>
    intro nr pk n r tr h
    simp only [WifiCmd.outerLoop] at h
    split at h
    next hin =>
      injection h with h1 h2
      subst h1
      subst h2
      refine ⟨Or.inr (Or.inl rfl), ?_, ?_⟩
      · intro s hs; exact absurd hs (by simp)
      · intro hok; exact absurd hok (by simp)
    next p n2 es hin =>
      split at h
      next e hp =>
        injection h with h1 h2
        subst h1
        subst h2
        refine ⟨Or.inr (Or.inr ⟨_, rfl⟩), ?_, ?_⟩
        · intro s hs
          injection hs with hse
          exact ⟨p, e, hp, hse.symm, by
            rw [List.getLast?_append_cons]
            rfl⟩
        · intro hok; exact absurd hok (by simp)
      next hp =>
        split at h
        next hzero =>
          injection h with h1 h2
          subst h1
          subst h2
          refine ⟨Or.inl rfl, ?_, ?_⟩
          · intro s hs; exact absurd hs (by simp)
          · intro hok
            exact ⟨p, hp, hzero, by rw [List.getLast?_append_cons]; rfl⟩
        next hzero =>
          injection h with h1 h2
          subst h1
          subst h2
          obtain ⟨c1, c2, c3⟩ := ih false (some p) n2
            (WifiCmd.outerLoop env ifuel false (some p) n2 k).1
            (WifiCmd.outerLoop env ifuel false (some p) n2 k).2 rfl
          refine ⟨c1, ?_, ?_⟩
          · intro s hs
            obtain ⟨p2, e2, hpe, hse, hlast⟩ := c2 s hs
            have htrne : (WifiCmd.outerLoop env ifuel false (some p) n2 k).2 ≠ [] := by
              intro hnil
              rw [hnil] at hlast
              exact absurd hlast (by simp)
            refine ⟨p2, e2, hpe, hse, ?_⟩
            rw [List.getLast?_append_of_ne_nil _ htrne]
            exact hlast
          · intro hok
            obtain ⟨p2, hpe, hz, hlast⟩ := c3 hok
            have htrne : (WifiCmd.outerLoop env ifuel false (some p) n2 k).2 ≠ [] := by
              intro hnil
              rw [hnil] at hlast
              exact absurd hlast (by simp)
            refine ⟨p2, hpe, hz, ?_⟩
            rw [List.getLast?_append_of_ne_nil _ htrne]
            exact hlast


/-- C10: after the DHCP client is successfully constructed, the only error a
`dhclient4` run can return is the wrapped `HandlePacket` error, and an
error-free terminating run ends only via the infinite-lease break: its last
event is a successful handle of a lease with `ValidLifetime = 0`.  There is
no retry-exhaustion outcome. -/
theorem dhclient4_error_source (env : WifiCmd.DhcpEnv) (ifuel ofuel : Nat)
    (r : WifiCmd.RunResult) (tr : List WifiCmd.DhcpEvent)
    (hnew : env.newV4 = none)
    (hrun : WifiCmd.dhclient4 env ifuel ofuel = (r, tr)) :
    (r = .ok ∨ r = .outOfFuel ∨ ∃ s, r = .handleError s) ∧
    (∀ s, r = .handleError s →
      ∃ p e, env.handlePacket p = some e ∧ s = "error handling pakcet: " ++ e ∧
        tr.getLast? = some (.handle p (some e))) ∧
    (r = .ok → ∃ p, env.handlePacket p = none ∧ p.ValidLifetime = 0 ∧
        tr.getLast? = some (.handle p none)) := by
  simp only [WifiCmd.dhclient4, hnew] at hrun
  exact outerLoop_cases env ifuel ofuel true none 0 r tr hrun

/-- C10 witness: a concrete run that terminates via the infinite-lease
break, with the oracle that grants an infinite lease at once. -/
theorem dhclient4_error_source_witness :
    envInf.newV4 = none ∧
    WifiCmd.dhclient4 envInf 1 1 = (.ok, [.solicit, .handle ⟨0⟩ none]) ∧
    ∃ p : WifiCmd.Lease, envInf.handlePacket p = none ∧ p.ValidLifetime = 0 ∧
      ([WifiCmd.DhcpEvent.solicit, .handle ⟨0⟩ none].getLast?
        = some (.handle p none)) :=
  ⟨rfl, rfl,
    (dhclient4_error_source envInf 1 1 .ok [.solicit, .handle ⟨0⟩ none]
      rfl rfl).2.2 rfl⟩

/-- Invariant of the parse loop: on success the emitted SSIDs are pairwise
distinct, and none of them was in the `knownEssids` set on entry. -/
theorem parseCells_nodup (ls essids encs : List String) :
    ∀ (cs : List Nat) (i : Nat) (known : List String) (res : List Wifi.WifiOption),
      Wifi.parseCells ls essids encs cs i known = .ok res →
      (res.map Wifi.WifiOption.Essid).Nodup ∧ ∀ r ∈ res, r.Essid ∉ known := by
  intro cs
  induction cs with
  | nil =>
    intro i known res h
    simp only [Wifi.parseCells] at h
    injection h with h1
    subst h1
    simp
  | cons c rest ih =>
    intro i known res h
    simp only [Wifi.parseCells] at h
    split at h
    next => exact absurd h (by simp)
    next essidLine hget =>
      split at h
      next => exact absurd h (by simp)
      next rawEssid hsplit =>
        split at h
        next hdup => exact ih (i + 1) known res h
        next hdup =>
          split at h
          next => exact absurd h (by simp)
          next encLine henc =>
            split at h
            next e hcl => exact absurd h (by simp)
            next proto hcl =>
              cases hrec : Wifi.parseCells ls essids encs rest (i + 1)
                  (Wifi.trimChars rawEssid ['"', '\n'] :: known) with
              | error e => rw [hrec] at h; exact absurd h (by simp [Except.map])
              | ok res2 =>
                rw [hrec] at h
                simp only [Except.map] at h
                injection h with h1
                subst h1
                obtain ⟨n1, n2⟩ := ih (i + 1) _ res2 hrec
                have hnotin : Wifi.trimChars rawEssid ['"', '\n'] ∉ known := by
                  intro hk
                  exact hdup (List.elem_iff.mpr hk)
                constructor
                · simp only [List.map_cons, List.nodup_cons]
                  refine ⟨?_, n1⟩
                  intro hmem
                  obtain ⟨r, hr, hre⟩ := List.mem_map.mp hmem
                  exact (n2 r hr) (by rw [hre]; exact List.mem_cons_self _ _)
                · intro r hr
                  rcases List.mem_cons.mp hr with hr1 | hr2
                  · rw [hr1]
                    exact hnotin
                  · exact fun hk => (n2 r hr2) (List.mem_cons_of_mem _ hk)

/-- C2: the parser returns at most one record per distinct SSID — the SSIDs
of a successful parse are pairwise distinct; a block whose SSID is already
known is skipped without contributing a record; and on the two-block
`"Home"` scenario the single surviving record is the first block's
`{Home, NoEnc}` (the spec's `Open`). -/
theorem parseIwlistOut_dedup :
    (∀ (ls : List String) (res : List Wifi.WifiOption),
        Wifi.parseIwlistOut ls = .ok res → (res.map Wifi.WifiOption.Essid).Nodup) ∧
    (∀ (ls essids encs : List String) (c : Nat) (rest : List Nat) (i : Nat)
        (known : List String) (essidLine rawEssid : String),
        essids.get? i = some essidLine →
        (Wifi.splitColon essidLine).get? 1 = some rawEssid →
        known.contains (Wifi.trimChars rawEssid ['"', '\n']) = true →
        Wifi.parseCells ls essids encs (c :: rest) i known
          = Wifi.parseCells ls essids encs rest (i + 1) known) ∧
    Wifi.parseIwlistOut homeScan = .ok [⟨"Home", .NoEnc⟩] := by
  refine ⟨?_, ?_, rfl⟩
  · intro ls res h
    simp only [Wifi.parseIwlistOut] at h
    split at h
    · injection h with h1
      subst h1
      simp
    · exact (parseCells_nodup ls _ _ _ 0 [] res h).1
  · intro ls essids encs c rest i known essidLine rawEssid hget hsplit hdup
    simp only [Wifi.parseCells, hget, hsplit, hdup, if_true, ite_true]

/-- C2 witness: the `"Home"` scenario parses, and its record list has
pairwise-distinct SSIDs. -/
theorem parseIwlistOut_dedup_witness :
    Wifi.parseIwlistOut homeScan = .ok [⟨"Home", .NoEnc⟩] ∧
    (([⟨"Home", .NoEnc⟩] : List Wifi.WifiOption).map Wifi.WifiOption.Essid).Nodup :=
  ⟨rfl, parseIwlistOut_dedup.1 homeScan [⟨"Home", .NoEnc⟩] rfl⟩

/-- C6: a block whose encryption indicator is `off` is classified `NoEnc`
(the spec's `Open`) with no further security parsing: the step equation holds
for every document `ls`, whatever WPA2 markers or authentication-suite text
it contains anywhere — including inside this block's own window, as the
`offScan` scenario shows. -/
theorem parseIwlistOut_enc_off :
    (∀ (ls essids encs : List String) (c : Nat) (rest : List Nat) (i : Nat)
        (known : List String) (essidLine rawEssid encLine rawEnc : String),
        essids.get? i = some essidLine →
        (Wifi.splitColon essidLine).get? 1 = some rawEssid →
        known.contains (Wifi.trimChars rawEssid ['"', '\n']) = false →
        encs.get? i = some encLine →
        (Wifi.splitColon encLine).get? 1 = some rawEnc →
        Wifi.trimChars rawEnc ['\n'] = "off" →
        Wifi.parseCells ls essids encs (c :: rest) i known
          = (Wifi.parseCells ls essids encs rest (i + 1)
              (Wifi.trimChars rawEssid ['"', '\n'] :: known)).map
              (fun res => ⟨Wifi.trimChars rawEssid ['"', '\n'], .NoEnc⟩ :: res)) ∧
    Wifi.parseIwlistOut offScan = .ok [⟨"X", .NoEnc⟩] := by
  refine ⟨?_, rfl⟩
  intro ls essids encs c rest i known essidLine rawEssid encLine rawEnc
    hget hsplit hdup henc hesplit hoff
  simp only [Wifi.parseCells, hget, hsplit, hdup, henc, Wifi.classifyCell, hesplit,
    if_pos hoff, Bool.false_eq_true, if_false, ite_false]

/-- C6 witness: the single block of `offScan` satisfies the step hypotheses
(indicator `off`), and the step emits `{X, NoEnc}`. -/
theorem parseIwlistOut_enc_off_witness :
    ((offScan.filter Wifi.isEssidLine).get? 0 = some "          ESSID:\"X\"") ∧
    ((Wifi.splitColon "          ESSID:\"X\"").get? 1 = some "\"X\"") ∧
    (([] : List String).contains (Wifi.trimChars "\"X\"" ['"', '\n']) = false) ∧
    ((offScan.filter Wifi.isEncKeyLine).get? 0
      = some "          Encryption key:off") ∧
    ((Wifi.splitColon "          Encryption key:off").get? 1 = some "off") ∧
    (Wifi.trimChars "off" ['\n'] = "off") ∧
    Wifi.parseCells offScan (offScan.filter Wifi.isEssidLine)
        (offScan.filter Wifi.isEncKeyLine) (0 :: []) 0 []
      = (Wifi.parseCells offScan (offScan.filter Wifi.isEssidLine)
          (offScan.filter Wifi.isEncKeyLine) [] 1
          (Wifi.trimChars "\"X\"" ['"', '\n'] :: [])).map
          (fun res => ⟨Wifi.trimChars "\"X\"" ['"', '\n'], .NoEnc⟩ :: res) :=
  ⟨rfl, rfl, rfl, rfl, rfl, rfl,
    parseIwlistOut_enc_off.1 offScan _ _ 0 [] 0 [] _ _ _ _
      rfl rfl rfl rfl rfl rfl⟩

/-- C3: a block with the indicator on is classified by searching for the
WPA2 marker only in its own window — the lines from this block's start to
the next block's start (or the end of the document): if no marker is there,
the block is `NotSupportedProto` (the spec's `Unsupported`), for every
document `ls`, whatever markers or authentication-suite text lie outside the
window; the `windowScan` scenario has both in the next block. -/
theorem parseIwlistOut_wpa2_window :
    (∀ (ls essids encs : List String) (c : Nat) (rest : List Nat) (i : Nat)
        (known : List String) (essidLine rawEssid encLine rawEnc : String),
        essids.get? i = some essidLine →
        (Wifi.splitColon essidLine).get? 1 = some rawEssid →
        known.contains (Wifi.trimChars rawEssid ['"', '\n']) = false →
        encs.get? i = some encLine →
        (Wifi.splitColon encLine).get? 1 = some rawEnc →
        Wifi.trimChars rawEnc ['\n'] ≠ "off" →
        ((ls.drop c).take ((rest.head?).getD ls.length - c)).findIdx?
            Wifi.isWpa2Line = none →
        Wifi.parseCells ls essids encs (c :: rest) i known
          = (Wifi.parseCells ls essids encs rest (i + 1)
              (Wifi.trimChars rawEssid ['"', '\n'] :: known)).map
              (fun res =>
                ⟨Wifi.trimChars rawEssid ['"', '\n'], .NotSupportedProto⟩ :: res)) ∧
    Wifi.parseIwlistOut windowScan
      = .ok [⟨"A", .NotSupportedProto⟩, ⟨"B", .WpaPsk⟩] := by
  refine ⟨?_, rfl⟩
  intro ls essids encs c rest i known essidLine rawEssid encLine rawEnc
    hget hsplit hdup henc hesplit hon hwin
  simp only [Wifi.parseCells, hget, hsplit, hdup, henc, Wifi.classifyCell, hesplit,
    if_neg hon, hwin, Bool.false_eq_true, if_false, ite_false]

/-- C3 witness: block `"A"` of `windowScan` satisfies the step hypotheses —
indicator on, no WPA2 marker among its own three lines — and the step emits
`{A, NotSupportedProto}` although block `"B"` further down holds a WPA2
marker and a PSK authentication-suite line. -/
theorem parseIwlistOut_wpa2_window_witness :
    ((windowScan.filter Wifi.isEssidLine).get? 0 = some "          ESSID:\"A\"") ∧
    ((Wifi.splitColon "          ESSID:\"A\"").get? 1 = some "\"A\"") ∧
    (([] : List String).contains (Wifi.trimChars "\"A\"" ['"', '\n']) = false) ∧
    ((windowScan.filter Wifi.isEncKeyLine).get? 0
      = some "          Encryption key:on") ∧
    ((Wifi.splitColon "          Encryption key:on").get? 1 = some "on") ∧
    (Wifi.trimChars "on" ['\n'] ≠ "off") ∧
    (((windowScan.drop 0).take (([3].head?).getD windowScan.length - 0)).findIdx?
        Wifi.isWpa2Line = none) ∧
    Wifi.parseCells windowScan (windowScan.filter Wifi.isEssidLine)
        (windowScan.filter Wifi.isEncKeyLine) (0 :: [3]) 0 []
      = (Wifi.parseCells windowScan (windowScan.filter Wifi.isEssidLine)
          (windowScan.filter Wifi.isEncKeyLine) [3] 1
          (Wifi.trimChars "\"A\"" ['"', '\n'] :: [])).map
          (fun res =>
            ⟨Wifi.trimChars "\"A\"" ['"', '\n'], .NotSupportedProto⟩ :: res) :=
  ⟨rfl, rfl, rfl, rfl, rfl, by decide, rfl,
    parseIwlistOut_wpa2_window.1 windowScan _ _ 0 [3] 0 [] _ _ _ _
      rfl rfl rfl rfl rfl (by decide) rfl⟩

/-- Function `classifyCell` never reports the match-sequence indexing panic: its only
panics come from `strings.Split(...)[1]` accesses. -/
theorem classifyCell_ne_seqOOB (ls : List String) (encLine : String) (c endIdx : Nat) :
    Wifi.classifyCell ls encLine c endIdx ≠ .error .seqOOB := by
  simp only [Wifi.classifyCell]
  split
  · simp
  next rawEnc hsplit =>
    split
    · simp
    · split
      · simp
      next l hfind =>
        split
        · simp
        next rawAuth hsplit2 => simp

/-- Under the count-alignment precondition, the parse loop never reports the
`seqOOB` panic: every `essids[i]` and `encKeyOpts[i]` access is in range. -/
theorem parseCells_inbounds (ls essids encs : List String) :
    ∀ (cs : List Nat) (i : Nat) (known : List String),
      i + cs.length ≤ essids.length → i + cs.length ≤ encs.length →
      Wifi.parseCells ls essids encs cs i known ≠ .error .seqOOB := by
  intro cs
  induction cs with
  | nil => intro i known h1 h2; simp [Wifi.parseCells]
  | cons c rest ih =>
    intro i known h1 h2
    have hi1 : i < essids.length := by simp only [List.length_cons] at h1; omega
    have hi2 : i < encs.length := by simp only [List.length_cons] at h2; omega
    simp only [Wifi.parseCells]
    split
    next hnone => exact absurd (List.get?_eq_none.mp hnone) (by omega)
    next essidLine hget =>
      split
      · simp
      next rawEssid hsplit =>
        split
        · exact ih (i + 1) known
            (by simp only [List.length_cons] at h1; omega)
            (by simp only [List.length_cons] at h2; omega)
        · split
          next hencnone => exact absurd (List.get?_eq_none.mp hencnone) (by omega)
          next encLine henc =>
            split
            next e hcl =>
              intro heq
              injection heq with he
              subst he
              exact classifyCell_ne_seqOOB ls encLine c _ hcl
            next proto hcl =>
              cases hrec : Wifi.parseCells ls essids encs rest (i + 1)
                  (Wifi.trimChars rawEssid ['"', '\n'] :: known) with
              | error e2 =>
                intro heq
                simp only [Except.map] at heq
                injection heq with he
                subst he
                exact ih (i + 1) _
                  (by simp only [List.length_cons] at h1; omega)
                  (by simp only [List.length_cons] at h2; omega) hrec
              | ok res2 => simp [Except.map]

/-- C9: for every scan text with at least as many SSID lines and
encryption-indicator lines as cell blocks, each index the parser performs
into the SSID-line and encryption-line match sequences is in bounds, so the
`seqOOB` out-of-bounds branch of the embedding is unreachable. -/
theorem parseIwlistOut_inbounds (ls : List String)
    (h1 : (Wifi.cellIdxs ls).length ≤ (ls.filter Wifi.isEssidLine).length)
    (h2 : (Wifi.cellIdxs ls).length ≤ (ls.filter Wifi.isEncKeyLine).length) :
    Wifi.parseIwlistOut ls ≠ .error .seqOOB := by
  simp only [Wifi.parseIwlistOut]
  split
  · simp
  · exact parseCells_inbounds ls _ _ (Wifi.cellIdxs ls) 0 []
      (by simpa using h1) (by simpa using h2)

/-- C9 witness: `homeScan` has two cell blocks, two SSID lines and two
encryption-indicator lines, and its parse indeed avoids the `seqOOB`
branch. -/
theorem parseIwlistOut_inbounds_witness :
    ((Wifi.cellIdxs homeScan).length ≤ (homeScan.filter Wifi.isEssidLine).length) ∧
    ((Wifi.cellIdxs homeScan).length ≤ (homeScan.filter Wifi.isEncKeyLine).length) ∧
    Wifi.parseIwlistOut homeScan ≠ .error .seqOOB :=
  ⟨by decide, by decide,
    parseIwlistOut_inbounds homeScan (by decide) (by decide)⟩
